import Mathlib

/-!
Verification of the identifier / path type system and the streaming
resolution decoder of the `crdt-dir-ipfs` repository
(`src/kubo_rpc/ipfs.rs`, `src/kubo_rpc/keys.rs`, `src/kubo_rpc/ipns.rs`).

Text is modelled as `List Char`.  The external `cid` crate (generic
multiformat identifier with multibase text encoding) is out of scope of the
repository and is modelled at its boundary: an identifier is a record of
version, codec tag and multihash payload bytes; the multibase text encoding
is modelled by an injective encoding that keeps the library's observable
contract (a selectable base alphabet, a version-0 identifier is encodable
only in base58btc, parsing inverts formatting, parsing any undecodable text
fails).  Everything else is translated directly from the Rust source.
-/

namespace KuboRpc

/-- Decidable equality for `Except`, used to settle concrete instances of
the contracts below by evaluation. -/
instance exceptDecEq {ε α : Type} [DecidableEq ε] [DecidableEq α] :
    DecidableEq (Except ε α) := fun a b =>
  match a, b with
  | Except.ok x, Except.ok y =>
    if h : x = y then Decidable.isTrue (by rw [h])
    else Decidable.isFalse (fun hc => h (by cases hc; rfl))
  | Except.error e, Except.error f =>
    if h : e = f then Decidable.isTrue (by rw [h])
    else Decidable.isFalse (fun hc => h (by cases hc; rfl))
  | Except.ok _, Except.error _ => Decidable.isFalse (fun hc => by cases hc)
  | Except.error _, Except.ok _ => Decidable.isFalse (fun hc => by cases hc)

/-- Boundary model of the external `cid` crate's `Cid` type: a version,
a codec tag and the multihash payload bytes.  The crate guarantees that a
version-0 identifier always carries the dag-pb codec `0x70`; that guarantee
is carried as the well-formedness predicate `Cid.wf` below. -/
structure Cid where
  version : Nat
  codec : Nat
  hash : List Nat
deriving DecidableEq

/-- The two base alphabets the repository selects when formatting
(`Base::Base58Btc` for content identifiers, `Base::Base36Lower` for name
identifiers). -/
inductive MBase
  | base58btc
  | base36lower
deriving DecidableEq

/-- Library contract for identifiers obtainable from the `cid` crate:
version is 0 or 1, a version-0 identifier has codec `0x70`, and codec and
payload bytes are small enough to be carried by the modelled text atoms. -/
def Cid.wf (c : Cid) : Prop :=
  (c.version = 0 ∨ c.version = 1) ∧ (c.version = 0 → c.codec = 0x70) ∧
    c.codec < 55296 ∧ ∀ b ∈ c.hash, b < 55296

/-- Multibase prefix character of the modelled text form. -/
def MBase.lead : MBase → Char
  | .base58btc => 'z'
  | .base36lower => 'k'

/-- Boundary model of `Cid::to_string_of_base`: a version-0 identifier is
encodable only in base58btc (the crate errors otherwise), a version-1
identifier is prefixed by the base's lead character followed by its codec
and payload. -/
def Cid.toText (c : Cid) (b : MBase) : Option (List Char) :=
  if c.version = 0 then
    match b with
    | .base58btc => some ('Q' :: 'm' :: c.hash.map Char.ofNat)
    | .base36lower => none
  else
    some (b.lead :: Char.ofNat c.codec :: c.hash.map Char.ofNat)

/-- Boundary model of `Cid::from_str`: recognises the version-0 form and the
prefixed version-1 forms of either base; any other text is undecodable. -/
def Cid.fromText : List Char → Option Cid
  | 'Q' :: 'm' :: rest => some ⟨0, 0x70, rest.map Char.toNat⟩
  | 'z' :: cc :: rest => some ⟨1, cc.toNat, rest.map Char.toNat⟩
  | 'k' :: cc :: rest => some ⟨1, cc.toNat, rest.map Char.toNat⟩
  | _ => none

/-- `pub struct IpfsCid(pub Cid)` from `src/kubo_rpc/ipfs.rs`: the inner
field is `pub` in the source, so the constructor is public and performs no
check; the codec check lives only in the fallible conversions below. -/
structure IpfsCid where
  cid : Cid
deriving DecidableEq

/-- `pub struct IpnsKey(pub Cid)` from `src/kubo_rpc/keys.rs`; as for
`IpfsCid` the inner field is `pub` in the source. -/
structure IpnsKey where
  cid : Cid
deriving DecidableEq

def msgInvalidCid : List Char := ("Invalid CID").toList

def msgUnsupportedCodec : List Char := ("Unsupported codec for IPFS CID").toList

def msgNotIpnsKey : List Char := ("Not an IPNS key").toList

/-- `impl TryFrom<Cid> for IpfsCid`: accept codec `0x70` (dag-pb) or `0x55`
(raw), reject anything else. -/
def IpfsCid.tryFromCid (cid : Cid) : Except (List Char) IpfsCid :=
  if cid.codec = 0x70 ∨ cid.codec = 0x55 then Except.ok (IpfsCid.mk cid)
  else Except.error msgUnsupportedCodec

/-- `impl FromStr for IpfsCid`: decode the text as a `Cid` (error
"Invalid CID" if undecodable), then delegate to the codec check. -/
def IpfsCid.fromStr (s : List Char) : Except (List Char) IpfsCid :=
  match Cid.fromText s with
  | none => Except.error msgInvalidCid
  | some cid => IpfsCid.tryFromCid cid

/-- `impl TryFrom<Cid> for IpnsKey`: accept exactly the libp2p-key codec
`0x72`. -/
def IpnsKey.tryFromCid (cid : Cid) : Except (List Char) IpnsKey :=
  if cid.codec = 0x72 then Except.ok (IpnsKey.mk cid)
  else Except.error msgNotIpnsKey

/-- `impl FromStr for IpnsKey`: decode then check the codec. -/
def IpnsKey.fromStr (s : List Char) : Except (List Char) IpnsKey :=
  match Cid.fromText s with
  | none => Except.error msgInvalidCid
  | some cid => IpnsKey.tryFromCid cid

/-- `impl Display for IpfsCid`: base58btc text of the wrapped identifier;
`none` models the `Err(fmt::Error)` branch. -/
def IpfsCid.display (k : IpfsCid) : Option (List Char) :=
  k.cid.toText MBase.base58btc

/-- `impl Display for IpnsKey`: base36lower text of the wrapped identifier;
`none` models the `Err(fmt::Error)` branch. -/
def IpnsKey.display (k : IpnsKey) : Option (List Char) :=
  k.cid.toText MBase.base36lower

/-- `enum IpfsPath` from `src/kubo_rpc/ipns.rs`. -/
inductive IpfsPath
  | Ipfs (cid : IpfsCid)
  | Ipns (key : IpnsKey)
deriving DecidableEq

def ipfsPre : List Char := ("/ipfs/").toList

def ipnsPre : List Char := ("/ipns/").toList

def msgBadCidPath : List Char := ("Invalid CID in /ipfs/ path").toList

def msgBadKeyPath : List Char := ("Invalid IPNS key in /ipns/ path: ").toList

def msgNoScheme : List Char := ("IPFS path must start with /ipfs/ or /ipns/").toList

/-- Model of `str::strip_prefix`: remove a leading pattern, `none` when the
text does not start with it. -/
def dropLead : List Char → List Char → Option (List Char)
  | [], s => some s
  | _ :: _, [] => none
  | p :: ps, c :: cs => if c = p then dropLead ps cs else none

/-- `IpfsPath::as_str`: `format!` over the `Display` of the wrapped
identifier.  `none` models the panic `format!` raises when a `Display`
implementation fails. -/
def IpfsPath.asStr : IpfsPath → Option (List Char)
  | .Ipfs k => k.display.map (fun t => ipfsPre ++ t)
  | .Ipns k => k.display.map (fun t => ipnsPre ++ t)

/-- `impl FromStr for IpfsPath`: strip `/ipfs/` and parse a content
identifier, else strip `/ipns/` and parse a name identifier (the error
message carries the remainder), else fail with the scheme error. -/
def IpfsPath.fromStr (s : List Char) : Except (List Char) IpfsPath :=
  match dropLead ipfsPre s with
  | some stripped =>
    match IpfsCid.fromStr stripped with
    | Except.ok cid => Except.ok (IpfsPath.Ipfs cid)
    | Except.error _ => Except.error msgBadCidPath
  | none =>
    match dropLead ipnsPre s with
    | some stripped =>
      match IpnsKey.fromStr stripped with
      | Except.ok k => Except.ok (IpfsPath.Ipns k)
      | Except.error _ => Except.error (msgBadKeyPath ++ stripped)
    | none => Except.error msgNoScheme

/-- A path value as obtainable through the validated constructions: the
wrapped identifier satisfies the library contract and the codec check of
its wrapper type. -/
def IpfsPath.valid : IpfsPath → Prop
  | .Ipfs k => k.cid.wf ∧ (k.cid.codec = 0x70 ∨ k.cid.codec = 0x55)
  | .Ipns k => k.cid.wf ∧ k.cid.codec = 0x72

/-! ## Streaming resolution decoder (`name_resolve_streaming`)

The response byte stream is modelled as a list of read results: data chunks
followed (possibly) by a transport-level read failure.  `LinesCodec` splits
the buffered bytes on `'\n'`, strips a trailing `'\r'` from each frame, and
at clean end of input returns the remaining non-empty buffer as a final
frame (`decode_eof`).  `FramedRead` yields the frames completed so far
before each further read; when a read fails it yields the error and the
stream is fused (nothing afterwards, the partial buffer is dropped).  The
per-line closure parses the frame as a `ResolveResponse` JSON record whose
`Path` field is an `IpfsPath`; any parse failure is a malformed item. -/

/-- One read result of the response byte stream: a chunk of bytes, or a
transport-level read failure. -/
inductive RChunk
  | bytes (b : List Char)
  | ioErr
deriving DecidableEq

/-- Decoded stream items, per the spec's taxonomy: a transport failure or a
malformed record (the source carries both as `anyhow::Error`; they are
distinguished by their origin in the decode chain). -/
inductive DecodeErr
  | transport
  | malformed
deriving DecidableEq

/-- `LinesCodec` frame splitting: the complete (newline-terminated) lines of
the buffer, without their terminators, and the leftover partial line. -/
def splitLines : List Char → List (List Char) × List Char
  | [] => ([], [])
  | c :: cs =>
    if c = '\n' then
      ([] :: (splitLines cs).1, (splitLines cs).2)
    else
      match splitLines cs with
      | ([], r) => ([], c :: r)
      | (l :: ls, r) => ((c :: l) :: ls, r)

/-- `LinesCodec` removes one trailing carriage return from each frame. -/
def stripCR (l : List Char) : List Char :=
  match l.getLast? with
  | some c => if c = '\r' then l.dropLast else l
  | none => l

/-- Boundary model of `serde_json::from_str::<ResolveResponse>` for the
daemon's record shape: recognise exactly a one-field object whose `Path`
value is a quote-free string, and yield that string. -/
def parseResolveRecord (l : List Char) : Option (List Char) :=
  match dropLead (("\x7b\"Path\":\"").toList) l with
  | none => none
  | some rest =>
    match (dropLead (("\"\x7d").toList).reverse rest.reverse).map List.reverse with
    | none => none
    | some mid => if '"' ∈ mid then none else some mid

/-- The per-line closure of `name_resolve_streaming`: JSON-decode the frame
as a `ResolveResponse` (whose `Path` field deserialises through
`IpfsPath::from_str`) and yield the path; any failure is a malformed item. -/
def decodeLine (line : List Char) : Except DecodeErr IpfsPath :=
  match parseResolveRecord line with
  | none => Except.error DecodeErr.malformed
  | some ptext =>
    match IpfsPath.fromStr ptext with
    | Except.ok p => Except.ok p
    | Except.error _ => Except.error DecodeErr.malformed

/-- The composed decode chain of `name_resolve_streaming`
(`StreamReader` + `FramedRead`/`LinesCodec` + the per-line map), denoted by
the item sequence it produces from a buffered prefix and the remaining read
results.  Draining completed frames between reads produces the same item
sequence as splitting the accumulated buffer, so chunk contents are
accumulated into the buffer and frames are cut when the stream ends or
fails. -/
def runChunks : List Char → List RChunk → List (Except DecodeErr IpfsPath)
  | buf, [] =>
    (splitLines buf).1.map (fun l => decodeLine (stripCR l)) ++
      (if (splitLines buf).2.isEmpty then []
       else [decodeLine (stripCR (splitLines buf).2)])
  | buf, RChunk.ioErr :: _ =>
    (splitLines buf).1.map (fun l => decodeLine (stripCR l)) ++
      [Except.error DecodeErr.transport]
  | buf, RChunk.bytes b :: rest => runChunks (buf ++ b) rest

/-! ## RPC query parameters and key generation -/

def keyArg : List Char := ("arg").toList

def keyKey : List Char := ("key").toList

def keyLifetime : List Char := ("lifetime").toList

def keyTtl : List Char := ("ttl").toList

def keyStream : List Char := ("stream").toList

def keyRecursive : List Char := ("recursive").toList

def keyNocache : List Char := ("nocache").toList

def keyDhtCount : List Char := ("dht-record-count").toList

def keyDhtTimeout : List Char := ("dht-timeout").toList

/-- The textual form of the boolean query values built by
`name_resolve_streaming`. -/
def boolText : Bool → List Char
  | true => ("true").toList
  | false => ("false").toList

/-- `u32::to_string` (decimal). -/
def natText (n : Nat) : List Char := Nat.toDigits 10 n

/-- The query-parameter list built by `name_publish`: `arg` (the path text)
and `key` (the key text) always, then `lifetime` and `ttl` pushed only when
supplied. -/
def publishParams (pathText keyText : List Char) (lifetime ttl : Option (List Char)) :
    List (List Char × List Char) :=
  [(keyArg, pathText), (keyKey, keyText)] ++
    (match lifetime with | some l => [(keyLifetime, l)] | none => []) ++
    (match ttl with | some t => [(keyTtl, t)] | none => [])

/-- The query-parameter list built by `name_resolve_streaming`: `arg` (the
name text) always; `stream=true` pushed only when the flag is set; each of
`recursive`, `nocache`, `dht-record-count`, `dht-timeout` pushed only when
supplied. -/
def resolveParams (nameText : List Char) (stream : Bool) (recursive nocache : Option Bool)
    (dhtRecordCount : Option Nat) (dhtTimeout : Option (List Char)) :
    List (List Char × List Char) :=
  [(keyArg, nameText)] ++
    (if stream then [(keyStream, ("true").toList)] else []) ++
    (match recursive with | some r => [(keyRecursive, boolText r)] | none => []) ++
    (match nocache with | some nc => [(keyNocache, boolText nc)] | none => []) ++
    (match dhtRecordCount with | some n => [(keyDhtCount, natText n)] | none => []) ++
    (match dhtTimeout with | some t => [(keyDhtTimeout, t)] | none => [])

/-- Whether a query-parameter list carries a parameter of the given name. -/
def hasKey (ps : List (List Char × List Char)) (k : List Char) : Bool :=
  ps.any (fun p => decide (p.1 = k))

/-- The daemon's error JSON shape in `generate_ipns_key` (`Message`,
`Code`, `Type`; the last is renamed since `Type` is reserved here). -/
structure IpfsErrorResponse where
  Message : List Char
  Code : Nat
  Typ : List Char
deriving DecidableEq

/-- The daemon's success JSON shape in `generate_ipns_key`; the `Id` field
deserialises through the validating `Deserialize` of `IpnsKey`. -/
structure KeyGenResponse where
  Name : List Char
  Id : IpnsKey
deriving DecidableEq

def msgKeyGenFail : List Char := ("IPFS key generation failed: ").toList

def msgUnknownError : List Char := ("Unknown error").toList

def msgKeyGenDeser : List Char := ("Failed to deserialize key generation response").toList

/-- Response handling of `generate_ipns_key`, with the network effects made
explicit: the HTTP status of the response, the body parsed as the success
shape (when attempted), and the body parsed as the daemon's error shape.
On status 200 the parsed key is returned (`IpnsKey::try_from` on an already
validated `IpnsKey` is the reflexive blanket conversion, hence the
identity); on any other status the call fails with the daemon's message,
or with the `unwrap_or_else` fallback message when the body does not parse
as the error shape. -/
def generateIpnsKey (status : Nat) (okBody : Option KeyGenResponse)
    (errBody : Option IpfsErrorResponse) : Except (List Char) IpnsKey :=
  if status = 200 then
    match okBody with
    | some info => Except.ok info.Id
    | none => Except.error msgKeyGenDeser
  else
    Except.error (msgKeyGenFail ++ (errBody.getD ⟨msgUnknownError, 0, ("error").toList⟩).Message)

/-! ## Helper lemmas -/

theorem dropLead_app (p s : List Char) : dropLead p (p ++ s) = some s := by
  induction p with
  | nil => rfl
  | cons c cs ih => simp [dropLead, ih]

theorem charRound (n : Nat) (h : n < 55296) : (Char.ofNat n).toNat = n := by
  have hv : n.isValidChar := Or.inl h
  rw [Char.ofNat, dif_pos hv]
  rfl

theorem mapRound (l : List Nat) (h : ∀ b ∈ l, b < 55296) :
    (l.map Char.ofNat).map Char.toNat = l := by
  induction l with
  | nil => rfl
  | cons b bs ih =>
    have hb : b < 55296 := h b (List.mem_cons_self b bs)
    have hbs : ∀ x ∈ bs, x < 55296 := fun x hx => h x (List.mem_cons_of_mem b hx)
    simp [charRound b hb, ih hbs]

theorem fromText_toText (c : Cid) (b : MBase) (s : List Char) (hwf : c.wf)
    (hs : c.toText b = some s) : Cid.fromText s = some c := by
  obtain ⟨hver, hv0, hcodec, hhash⟩ := hwf
  by_cases h0 : c.version = 0
  · cases b with
    | base58btc =>
      simp only [Cid.toText, if_pos h0] at hs
      cases hs
      show some (⟨0, 0x70, (c.hash.map Char.ofNat).map Char.toNat⟩ : Cid) = some c
      rw [mapRound c.hash hhash]
      have : c = ⟨0, 0x70, c.hash⟩ := by
        cases c
        simp_all
      rw [← this]
    | base36lower =>
      simp only [Cid.toText, if_pos h0] at hs
      exact Option.noConfusion hs
  · have h1 : c.version = 1 := hver.resolve_left h0
    simp only [Cid.toText, if_neg h0] at hs
    cases hs
    cases b with
    | base58btc =>
      show Cid.fromText ('z' :: Char.ofNat c.codec :: c.hash.map Char.ofNat) = some c
      rw [Cid.fromText]
      rw [mapRound c.hash hhash, charRound c.codec hcodec]
      have : c = ⟨1, c.codec, c.hash⟩ := by
        cases c
        simp_all
      rw [← this]
    | base36lower =>
      show Cid.fromText ('k' :: Char.ofNat c.codec :: c.hash.map Char.ofNat) = some c
      rw [Cid.fromText]
      rw [mapRound c.hash hhash, charRound c.codec hcodec]
      have : c = ⟨1, c.codec, c.hash⟩ := by
        cases c
        simp_all
      rw [← this]

theorem dropLead_ipfs_ipns (t : List Char) : dropLead ipfsPre (ipnsPre ++ t) = none := rfl

theorem splitLines_noNl (l : List Char) (h : '\n' ∉ l) : splitLines l = ([], l) := by
  induction l with
  | nil => rfl
  | cons c cs ih =>
    have hc : ¬ c = '\n' := fun hc => h (hc ▸ List.mem_cons_self c cs)
    have hcs : '\n' ∉ cs := fun hm => h (List.mem_cons_of_mem c hm)
    rw [splitLines, if_neg hc, ih hcs]

theorem splitLines_cons (l rest : List Char) (h : '\n' ∉ l) :
    splitLines (l ++ '\n' :: rest) = (l :: (splitLines rest).1, (splitLines rest).2) := by
  induction l with
  | nil => simp [splitLines]
  | cons c cs ih =>
    have hc : ¬ c = '\n' := fun hc => h (hc ▸ List.mem_cons_self c cs)
    have hcs : '\n' ∉ cs := fun hm => h (List.mem_cons_of_mem c hm)
    rw [List.cons_append, splitLines, if_neg hc, ih hcs]

instance cidWfDec (c : Cid) : Decidable c.wf :=
  inferInstanceAs (Decidable ((c.version = 0 ∨ c.version = 1) ∧ (c.version = 0 → c.codec = 0x70) ∧
    c.codec < 55296 ∧ ∀ b ∈ c.hash, b < 55296))

instance pathValidDec : (p : IpfsPath) → Decidable p.valid
  | .Ipfs k =>
    inferInstanceAs (Decidable (k.cid.wf ∧ (k.cid.codec = 0x70 ∨ k.cid.codec = 0x55)))
  | .Ipns k => inferInstanceAs (Decidable (k.cid.wf ∧ k.cid.codec = 0x72))

/-- Whether a fallible conversion succeeded. -/
def isOkE {ε α : Type} : Except ε α → Bool
  | Except.ok _ => true
  | Except.error _ => false

/-! ## Claims -/

/-- C1, counterexample: the inner `Cid` field of both wrapper types is
`pub`, so the tuple-struct constructor is a public constructor that
bypasses the codec check: it builds an `IpfsCid` whose codec is neither
`0x70` nor `0x55`, and an `IpnsKey` whose codec is not `0x72`. -/
theorem C1_counterexample :
    ¬ ((IpfsCid.mk ⟨1, 0x72, []⟩).cid.codec = 0x70 ∨
       (IpfsCid.mk ⟨1, 0x72, []⟩).cid.codec = 0x55) ∧
    ¬ (IpnsKey.mk ⟨1, 0x55, []⟩).cid.codec = 0x72 := by
  decide

/-- C1, amended: every value produced by the fallible factory functions
(`from_str` / `try_from`) satisfies the codec invariant of its wrapper
type; the invariant is not a property of the bare types, whose public
constructor performs no check. -/
theorem C1_factory_codec_invariant :
    (∀ s k, IpfsCid.fromStr s = Except.ok k → (k.cid.codec = 0x70 ∨ k.cid.codec = 0x55)) ∧
    (∀ g k, IpfsCid.tryFromCid g = Except.ok k → (k.cid.codec = 0x70 ∨ k.cid.codec = 0x55)) ∧
    (∀ s k, IpnsKey.fromStr s = Except.ok k → k.cid.codec = 0x72) ∧
    (∀ g k, IpnsKey.tryFromCid g = Except.ok k → k.cid.codec = 0x72) := by
  have hTryC : ∀ g k, IpfsCid.tryFromCid g = Except.ok k →
      (k.cid.codec = 0x70 ∨ k.cid.codec = 0x55) := by
    intro g k h
    rw [IpfsCid.tryFromCid] at h
    by_cases hc : g.codec = 0x70 ∨ g.codec = 0x55
    · rw [if_pos hc] at h
      cases h
      exact hc
    · rw [if_neg hc] at h
      exact Except.noConfusion h
  have hTryN : ∀ g k, IpnsKey.tryFromCid g = Except.ok k → k.cid.codec = 0x72 := by
    intro g k h
    rw [IpnsKey.tryFromCid] at h
    by_cases hc : g.codec = 0x72
    · rw [if_pos hc] at h
      cases h
      exact hc
    · rw [if_neg hc] at h
      exact Except.noConfusion h
  refine ⟨?_, hTryC, ?_, hTryN⟩
  · intro s k h
    cases hft : Cid.fromText s with
    | none =>
      simp only [IpfsCid.fromStr, hft] at h
      exact Except.noConfusion h
    | some g =>
      simp only [IpfsCid.fromStr, hft] at h
      exact hTryC g k h
  · intro s k h
    cases hft : Cid.fromText s with
    | none =>
      simp only [IpnsKey.fromStr, hft] at h
      exact Except.noConfusion h
    | some g =>
      simp only [IpnsKey.fromStr, hft] at h
      exact hTryN g k h

/-- C1, witness for the amended theorem at concrete inputs. -/
theorem C1_witness :
    (IpfsCid.mk ⟨1, 0x70, [3]⟩).cid.codec = 0x70 ∨ (IpfsCid.mk ⟨1, 0x70, [3]⟩).cid.codec = 0x55 :=
  C1_factory_codec_invariant.1 ['z', 'p', Char.ofNat 3] (IpfsCid.mk ⟨1, 0x70, [3]⟩) (by decide)

/-- C2: for every valid `IpfsPath` value, formatting (`as_str`) succeeds
and parsing the formatted text (`from_str`) gives back the same value. -/
theorem C2_path_roundtrip (p : IpfsPath) (hv : p.valid) :
    ∃ s, p.asStr = some s ∧ IpfsPath.fromStr s = Except.ok p := by
  cases p with
  | Ipfs k =>
    obtain ⟨hwf, hcodec⟩ := hv
    have ht : ∃ t, k.cid.toText MBase.base58btc = some t := by
      simp only [Cid.toText]
      by_cases h0 : k.cid.version = 0
      · simp [h0]
      · simp [h0]
    obtain ⟨t, ht⟩ := ht
    refine ⟨ipfsPre ++ t, ?_, ?_⟩
    · simp [IpfsPath.asStr, IpfsCid.display, ht]
    · have hft := fromText_toText k.cid MBase.base58btc t hwf ht
      simp only [IpfsPath.fromStr, dropLead_app, IpfsCid.fromStr, hft, IpfsCid.tryFromCid,
        if_pos hcodec]
  | Ipns k =>
    obtain ⟨hwf, hcodec⟩ := hv
    have h0 : ¬ k.cid.version = 0 := by
      intro h0
      have h70 := hwf.2.1 h0
      rw [hcodec] at h70
      exact absurd h70 (by decide)
    have ht : k.cid.toText MBase.base36lower =
        some ('k' :: Char.ofNat k.cid.codec :: k.cid.hash.map Char.ofNat) := by
      simp [Cid.toText, h0, MBase.lead]
    refine ⟨ipnsPre ++ ('k' :: Char.ofNat k.cid.codec :: k.cid.hash.map Char.ofNat), ?_, ?_⟩
    · simp [IpfsPath.asStr, IpnsKey.display, ht]
    · have hft := fromText_toText k.cid MBase.base36lower _ hwf ht
      simp only [IpfsPath.fromStr, dropLead_ipfs_ipns, dropLead_app, IpnsKey.fromStr, hft,
        IpnsKey.tryFromCid, if_pos hcodec]

/-- C2, witness: the round trip at a concrete valid name path. -/
theorem C2_witness :
    ∃ s, (IpfsPath.Ipns (IpnsKey.mk ⟨1, 0x72, [7]⟩)).asStr = some s ∧
      IpfsPath.fromStr s = Except.ok (IpfsPath.Ipns (IpnsKey.mk ⟨1, 0x72, [7]⟩)) :=
  C2_path_roundtrip (IpfsPath.Ipns (IpnsKey.mk ⟨1, 0x72, [7]⟩)) (by decide)

/-- C3: for every input text, both identifier parsers first decode the text
as a generic identifier, failing with the malformed-identifier error
("Invalid CID") when it is undecodable; otherwise `IpfsCid` succeeds
exactly for codec `0x70` or `0x55` and `IpnsKey` exactly for codec `0x72`,
each failing with its wrong-codec error otherwise. -/
theorem C3_parse_contract (s : List Char) :
    (Cid.fromText s = none →
      IpfsCid.fromStr s = Except.error msgInvalidCid ∧
      IpnsKey.fromStr s = Except.error msgInvalidCid) ∧
    (∀ c, Cid.fromText s = some c →
      ((c.codec = 0x70 ∨ c.codec = 0x55) → IpfsCid.fromStr s = Except.ok (IpfsCid.mk c)) ∧
      (¬ (c.codec = 0x70 ∨ c.codec = 0x55) →
        IpfsCid.fromStr s = Except.error msgUnsupportedCodec) ∧
      (c.codec = 0x72 → IpnsKey.fromStr s = Except.ok (IpnsKey.mk c)) ∧
      (¬ c.codec = 0x72 → IpnsKey.fromStr s = Except.error msgNotIpnsKey)) := by
  constructor
  · intro hft
    simp [IpfsCid.fromStr, IpnsKey.fromStr, hft]
  · intro c hft
    refine ⟨?_, ?_, ?_, ?_⟩
    · intro hc
      simp only [IpfsCid.fromStr, hft, IpfsCid.tryFromCid, if_pos hc]
    · intro hc
      simp only [IpfsCid.fromStr, hft, IpfsCid.tryFromCid, if_neg hc]
    · intro hc
      simp only [IpnsKey.fromStr, hft, IpnsKey.tryFromCid, if_pos hc]
    · intro hc
      simp only [IpnsKey.fromStr, hft, IpnsKey.tryFromCid, if_neg hc]

/-- C3, witness: a decodable content-codec text is accepted by `IpfsCid`
and rejected by `IpnsKey` with the wrong-codec error, and an undecodable
text fails with the malformed error. -/
theorem C3_witness :
    IpfsCid.fromStr ['z', 'p', Char.ofNat 3] = Except.ok (IpfsCid.mk ⟨1, 0x70, [3]⟩) ∧
    IpnsKey.fromStr ['z', 'p', Char.ofNat 3] = Except.error msgNotIpnsKey ∧
    IpfsCid.fromStr (("not-a-cid").toList) = Except.error msgInvalidCid := by
  refine ⟨?_, ?_, ?_⟩
  · exact ((C3_parse_contract _).2 ⟨1, 0x70, [3]⟩ (by decide)).1 (by decide)
  · exact ((C3_parse_contract _).2 ⟨1, 0x70, [3]⟩ (by decide)).2.2.2 (by decide)
  · exact ((C3_parse_contract _).1 (by decide)).1

/-- C4: for every generic identifier, at most one of the two fallible
conversions succeeds — the codec allow-sets `{0x70, 0x55}` and `{0x72}` do
not overlap. -/
theorem C4_disjoint_domains (c : Cid) :
    (isOkE (IpfsCid.tryFromCid c) && isOkE (IpnsKey.tryFromCid c)) = false := by
  by_cases h : c.codec = 0x70 ∨ c.codec = 0x55
  · have h72 : ¬ c.codec = 0x72 := by
      rcases h with h | h <;> simp [h]
    simp [IpfsCid.tryFromCid, IpnsKey.tryFromCid, h, h72, isOkE]
  · simp [IpfsCid.tryFromCid, h, isOkE]

/-- C5: in the streaming decoder, a line that does not decode (not valid
JSON, wrong record shape, or invalid embedded path — all reflected in
`decodeLine`) yields a malformed item for that line only, and the sequence
continues: a three-line stream whose second line is malformed yields a
valid path, a malformed error, and a valid path, in that order. -/
theorem C5_malformed_line_continues (l1 l2 l3 : List Char) (p1 p3 : IpfsPath)
    (hn1 : '\n' ∉ l1) (hn2 : '\n' ∉ l2) (hn3 : '\n' ∉ l3)
    (hc1 : stripCR l1 = l1) (hc2 : stripCR l2 = l2) (hc3 : stripCR l3 = l3)
    (h1 : decodeLine l1 = Except.ok p1)
    (h2 : decodeLine l2 = Except.error DecodeErr.malformed)
    (h3 : decodeLine l3 = Except.ok p3) :
    runChunks [] [RChunk.bytes (l1 ++ '\n' :: (l2 ++ '\n' :: (l3 ++ '\n' :: [])))] =
      [Except.ok p1, Except.error DecodeErr.malformed, Except.ok p3] := by
  have hs : splitLines (l1 ++ '\n' :: (l2 ++ '\n' :: (l3 ++ '\n' :: []))) = ([l1, l2, l3], []) := by
    rw [splitLines_cons _ _ hn1, splitLines_cons _ _ hn2, splitLines_cons _ _ hn3]
    rfl
  calc runChunks [] [RChunk.bytes (l1 ++ '\n' :: (l2 ++ '\n' :: (l3 ++ '\n' :: [])))]
      = (splitLines (l1 ++ '\n' :: (l2 ++ '\n' :: (l3 ++ '\n' :: [])))).1.map
          (fun l => decodeLine (stripCR l)) ++
        (if (splitLines (l1 ++ '\n' :: (l2 ++ '\n' :: (l3 ++ '\n' :: [])))).2.isEmpty then []
         else [decodeLine (stripCR (splitLines (l1 ++ '\n' :: (l2 ++ '\n' :: (l3 ++ '\n' :: [])))).2)]) := rfl
    _ = [Except.ok p1, Except.error DecodeErr.malformed, Except.ok p3] := by
        rw [hs]
        simp [hc1, hc2, hc3, h1, h2, h3]

/-- C5, witness: a concrete three-line NDJSON stream whose second line is
malformed JSON. -/
theorem C5_witness :
    runChunks [] [RChunk.bytes ((("\x7b\"Path\":\"/ipns/kr\x07\"\x7d").toList) ++ '\n' ::
        ((("garbage").toList) ++ '\n' ::
          ((("\x7b\"Path\":\"/ipfs/zU\x09\"\x7d").toList) ++ '\n' :: [])))] =
      [Except.ok (IpfsPath.Ipns (IpnsKey.mk ⟨1, 0x72, [7]⟩)),
       Except.error DecodeErr.malformed,
       Except.ok (IpfsPath.Ipfs (IpfsCid.mk ⟨1, 0x55, [9]⟩))] :=
  C5_malformed_line_continues _ _ _ _ _ (by decide) (by decide) (by decide)
    (by decide) (by decide) (by decide) (by decide) (by decide) (by decide)

/-- Whether a read result is a data chunk (as opposed to a transport-level
read failure). -/
def RChunk.isData : RChunk → Bool
  | .bytes _ => true
  | .ioErr => false

/-- C6: a transport-level read failure terminates the decoded sequence:
whatever was read before it, the sequence ends with a transport error as
its final item, and nothing after the failure (including further chunks of
a truncated line) contributes any item. -/
theorem C6_transport_terminal (buf : List Char) (chunks junk : List RChunk)
    (hc : chunks.all RChunk.isData = true) :
    runChunks buf (chunks ++ RChunk.ioErr :: junk) =
      runChunks buf (chunks ++ [RChunk.ioErr]) ∧
    ∃ pre, runChunks buf (chunks ++ RChunk.ioErr :: junk) =
      pre ++ [Except.error DecodeErr.transport] := by
  induction chunks generalizing buf with
  | nil =>
    refine ⟨rfl, ⟨(splitLines buf).1.map (fun l => decodeLine (stripCR l)), rfl⟩⟩
  | cons ch rest ih =>
    cases ch with
    | bytes b =>
      have hc' : rest.all RChunk.isData = true := by
        rw [List.all_cons] at hc
        exact ((Bool.and_eq_true _ _).mp hc).2
      exact ih (buf ++ b) hc'
    | ioErr =>
      simp [List.all_cons, RChunk.isData] at hc

/-- C6, witness: a concrete stream that ends mid-line with a read failure;
the line completed before the failure is decoded, the partial line is not,
and the transport error is the final item. -/
theorem C6_witness :
    runChunks [] ([RChunk.bytes ((("\x7b\"Path\":\"/ipns/kr\x07\"\x7d").toList) ++ '\n' ::
        (("\x7b\"Pa").toList))] ++ RChunk.ioErr ::
        [RChunk.bytes (("\x7b\"Path\":\"/ipfs/zU\x09\"\x7d").toList)]) =
      runChunks [] ([RChunk.bytes ((("\x7b\"Path\":\"/ipns/kr\x07\"\x7d").toList) ++ '\n' ::
        (("\x7b\"Pa").toList))] ++ [RChunk.ioErr]) ∧
    ∃ pre, runChunks [] ([RChunk.bytes ((("\x7b\"Path\":\"/ipns/kr\x07\"\x7d").toList) ++ '\n' ::
        (("\x7b\"Pa").toList))] ++ RChunk.ioErr ::
        [RChunk.bytes (("\x7b\"Path\":\"/ipfs/zU\x09\"\x7d").toList)]) =
      pre ++ [Except.error DecodeErr.transport] :=
  C6_transport_terminal [] _ _ (by decide)

/-- C7, counterexample: parsing `"/ipfs/"` (empty remainder after a valid
prefix) produces exactly the same error value as parsing
`"/ipfs/not-a-cid"` (remainder failing identifier validation), so the
empty remainder is not reported by a distinct empty-identifier error. -/
theorem C7_counterexample :
    IpfsPath.fromStr ipfsPre = IpfsPath.fromStr (("/ipfs/not-a-cid").toList) ∧
    IpfsPath.fromStr ipfsPre = Except.error msgBadCidPath := by
  decide

/-- C7, amended: path parsing is total (never a panic) and fails unless the
text starts with exactly `/ipfs/` or `/ipns/` followed by a valid
identifier; any other prefix (including the empty string and `/foo/bar`)
is the unknown-scheme error; a remainder failing identifier validation is
the bad-identifier error of its scheme — and an empty remainder after a
valid prefix is reported by that same bad-identifier error, not by a
distinct empty-identifier error. -/
theorem C7_error_taxonomy :
    (∀ r, IpfsPath.fromStr (ipfsPre ++ r) =
      (match IpfsCid.fromStr r with
       | Except.ok c => Except.ok (IpfsPath.Ipfs c)
       | Except.error _ => Except.error msgBadCidPath)) ∧
    (∀ r, IpfsPath.fromStr (ipnsPre ++ r) =
      (match IpnsKey.fromStr r with
       | Except.ok k => Except.ok (IpfsPath.Ipns k)
       | Except.error _ => Except.error (msgBadKeyPath ++ r))) ∧
    (∀ s, dropLead ipfsPre s = none → dropLead ipnsPre s = none →
      IpfsPath.fromStr s = Except.error msgNoScheme) ∧
    IpfsPath.fromStr [] = Except.error msgNoScheme ∧
    IpfsPath.fromStr (("/foo/bar").toList) = Except.error msgNoScheme ∧
    IpfsPath.fromStr ipfsPre = Except.error msgBadCidPath ∧
    IpfsPath.fromStr ipnsPre = Except.error (msgBadKeyPath ++ []) := by
  refine ⟨?_, ?_, ?_, by decide, by decide, by decide, by decide⟩
  · intro r
    simp only [IpfsPath.fromStr, dropLead_app]
  · intro r
    simp only [IpfsPath.fromStr, dropLead_ipfs_ipns, dropLead_app]
  · intro s h1 h2
    simp only [IpfsPath.fromStr, h1, h2]

/-- C7, witness: a text matching neither scheme fails with the
unknown-scheme error, by the amended taxonomy. -/
theorem C7_witness :
    IpfsPath.fromStr (("/bar").toList) = Except.error msgNoScheme :=
  C7_error_taxonomy.2.2.1 (("/bar").toList) (by decide) (by decide)

/-- C8: for a wrapped identifier satisfying the library contract and the
codec invariant established at construction, the `Display` implementations
never fail: the base58btc encoding of a content identifier always
succeeds, and a name identifier's codec `0x72` rules out version 0, so the
base36lower encoding always succeeds. -/
theorem C8_display_total (c : Cid) (hwf : c.wf) :
    ((c.codec = 0x70 ∨ c.codec = 0x55) → (IpfsCid.mk c).display.isSome = true) ∧
    (c.codec = 0x72 → (IpnsKey.mk c).display.isSome = true) := by
  constructor
  · intro _
    simp only [IpfsCid.display, Cid.toText]
    by_cases h0 : c.version = 0
    · simp [h0]
    · simp [h0]
  · intro h72
    have h0 : ¬ c.version = 0 := by
      intro h0
      have h70 := hwf.2.1 h0
      rw [h72] at h70
      exact absurd h70 (by decide)
    simp [IpnsKey.display, Cid.toText, h0]

/-- C8, witness: display of a concrete validly constructed name key. -/
theorem C8_witness : (IpnsKey.mk ⟨1, 0x72, [7]⟩).display.isSome = true :=
  (C8_display_total ⟨1, 0x72, [7]⟩ (by decide)).2 (by decide)

/-- C9: the mandatory query parameters (`arg` with the path text and `key`
with the key text for publish, `arg` with the name text for resolve) are
always present, and each optional parameter (`lifetime`, `ttl`,
`recursive`, `nocache`, `dht-record-count`, `dht-timeout`) as well as the
`stream` flag is serialized, with the supplied value, exactly when it is
supplied (set, for the flag). -/
theorem C9_query_params (pt kt nt : List Char) (lifetime ttl dhtTimeout : Option (List Char))
    (stream : Bool) (recursive nocache : Option Bool) (dhtRecordCount : Option Nat) :
    ((keyArg, pt) ∈ publishParams pt kt lifetime ttl) ∧
    ((keyKey, kt) ∈ publishParams pt kt lifetime ttl) ∧
    hasKey (publishParams pt kt lifetime ttl) keyLifetime = lifetime.isSome ∧
    (∀ l, lifetime = some l → (keyLifetime, l) ∈ publishParams pt kt lifetime ttl) ∧
    hasKey (publishParams pt kt lifetime ttl) keyTtl = ttl.isSome ∧
    (∀ t, ttl = some t → (keyTtl, t) ∈ publishParams pt kt lifetime ttl) ∧
    ((keyArg, nt) ∈ resolveParams nt stream recursive nocache dhtRecordCount dhtTimeout) ∧
    hasKey (resolveParams nt stream recursive nocache dhtRecordCount dhtTimeout) keyStream
      = stream ∧
    hasKey (resolveParams nt stream recursive nocache dhtRecordCount dhtTimeout) keyRecursive
      = recursive.isSome ∧
    (∀ b, recursive = some b →
      (keyRecursive, boolText b) ∈ resolveParams nt stream recursive nocache dhtRecordCount dhtTimeout) ∧
    hasKey (resolveParams nt stream recursive nocache dhtRecordCount dhtTimeout) keyNocache
      = nocache.isSome ∧
    (∀ b, nocache = some b →
      (keyNocache, boolText b) ∈ resolveParams nt stream recursive nocache dhtRecordCount dhtTimeout) ∧
    hasKey (resolveParams nt stream recursive nocache dhtRecordCount dhtTimeout) keyDhtCount
      = dhtRecordCount.isSome ∧
    (∀ n, dhtRecordCount = some n →
      (keyDhtCount, natText n) ∈ resolveParams nt stream recursive nocache dhtRecordCount dhtTimeout) ∧
    hasKey (resolveParams nt stream recursive nocache dhtRecordCount dhtTimeout) keyDhtTimeout
      = dhtTimeout.isSome ∧
    (∀ t, dhtTimeout = some t →
      (keyDhtTimeout, t) ∈ resolveParams nt stream recursive nocache dhtRecordCount dhtTimeout) := by
  refine ⟨?_, ?_, ?_, ?_, ?_, ?_, ?_, ?_, ?_, ?_, ?_, ?_, ?_, ?_, ?_, ?_⟩
  · simp [publishParams]
  · simp [publishParams]
  · cases lifetime <;> cases ttl <;> rfl
  · intro l hl
    subst hl
    simp [publishParams]
  · cases lifetime <;> cases ttl <;> rfl
  · intro t ht
    subst ht
    simp [publishParams]
  · simp [resolveParams]
  · cases stream <;> cases recursive <;> cases nocache <;> cases dhtRecordCount <;>
      cases dhtTimeout <;> rfl
  · cases stream <;> cases recursive <;> cases nocache <;> cases dhtRecordCount <;>
      cases dhtTimeout <;> rfl
  · intro b hb
    subst hb
    simp [resolveParams]
  · cases stream <;> cases recursive <;> cases nocache <;> cases dhtRecordCount <;>
      cases dhtTimeout <;> rfl
  · intro b hb
    subst hb
    simp [resolveParams]
  · cases stream <;> cases recursive <;> cases nocache <;> cases dhtRecordCount <;>
      cases dhtTimeout <;> rfl
  · intro n hn
    subst hn
    simp [resolveParams]
  · cases stream <;> cases recursive <;> cases nocache <;> cases dhtRecordCount <;>
      cases dhtTimeout <;> rfl
  · intro t ht
    subst ht
    simp [resolveParams]

/-- C9, witness: concrete publish and resolve calls; a supplied `lifetime`
and `nocache` are serialized with their values, an unset `stream` flag is
absent. -/
theorem C9_witness :
    (keyLifetime, ("24h").toList) ∈
      publishParams (("p").toList) (("k").toList) (some (("24h").toList)) none ∧
    hasKey (resolveParams (("n").toList) false none (some true) none none) keyStream = false ∧
    (keyNocache, boolText true) ∈ resolveParams (("n").toList) false none (some true) none none := by
  have h := C9_query_params (("p").toList) (("k").toList) (("n").toList)
    (some (("24h").toList)) none none false none (some true) none
  exact ⟨h.2.2.2.1 (("24h").toList) rfl, h.2.2.2.2.2.2.2.1,
    h.2.2.2.2.2.2.2.2.2.2.2.1 true rfl⟩

/-- C10: for every response to the key-generation call with a non-success
HTTP status, the call fails: with the daemon's message text when the error
body parses as the daemon's error JSON shape, and with the fallback text
"Unknown error" when it does not (the body-decoding problem is not
propagated as a separate error). -/
theorem C10_keygen_error (status : Nat) (okBody : Option KeyGenResponse)
    (errBody : Option IpfsErrorResponse) (h : ¬ status = 200) :
    generateIpnsKey status okBody errBody =
      Except.error (msgKeyGenFail ++
        (match errBody with | some e => e.Message | none => msgUnknownError)) := by
  simp only [generateIpnsKey, if_neg h]
  cases errBody with
  | none => rfl
  | some e => rfl

/-- C10, witness: a concrete 500 response with a parsed daemon error body,
and a concrete 404 response with an unparseable body. -/
theorem C10_witness :
    generateIpnsKey 500 none (some ⟨("boom").toList, 1, ("error").toList⟩) =
      Except.error (msgKeyGenFail ++ ("boom").toList) ∧
    generateIpnsKey 404 none none = Except.error (msgKeyGenFail ++ msgUnknownError) :=
  ⟨C10_keygen_error 500 none (some ⟨("boom").toList, 1, ("error").toList⟩) (by decide),
   C10_keygen_error 404 none none (by decide)⟩

end KuboRpc
